import Mathlib

/-!
# Verification of the LegendaryBirdMigrationDashboard selection core

Shallow embedding of the selection state machine and map component of the
repository:

* `pages/index.tsx` — the host page owning the `SelectionState`
  (`selectedRegion`, `viewMode`, `selectedCountry`) and the `currentInfo`
  record shown in the info panel;
* `components/RegionMap.tsx` (the maplibre revision whose line numbers the
  claims cite) — geometry loading (`fetchJson` + `Promise.all`), the
  `regionCountries` filter, the `fitToFeature` bounds fitter, the
  pointer-click handler on the `countries-hit` layer, the reset button, the
  WebGL context-loss handlers and the `useEffect` lifecycle;
* `src/unnamed/part_001` (the SVG revision) — its "Reset view" control,
  which calls `onCountrySelect("")`.

Strings model the JavaScript strings involved; JavaScript numbers are
modelled as rationals (`ℚ`), which is exact for the comparisons and
constants the embedded code performs (no rounding occurs in it).
-/

namespace BirdMigration

/-- The `viewMode` state of the host page (`pages/index.tsx`, line 26):
`"region" | "country"`. -/
inductive ViewMode
  | region
  | country
  deriving DecidableEq, Repr

/-- The host page's selection state (`pages/index.tsx`, lines 24–27):
`selectedRegion : string`, `viewMode`, and `selectedCountry : string | null`
(`none` models JavaScript `null`). -/
structure SelectionState where
  selectedRegion : String
  viewMode : ViewMode
  selectedCountry : Option String
  deriving DecidableEq, Repr

/-- A country feature as the map component consumes it: `properties.NAME`
and `properties.CONTINENT` (the parent region). A feature whose `NAME`
property is absent is modelled with `name = ""` — both are falsy in the
guard `if (!neName) return` of the click handler. -/
structure CountryFeature where
  name : String
  continent : String
  deriving DecidableEq, Repr

/-- The `onCountrySelect` callback the host passes to the map
(`pages/index.tsx`, lines 112–115): unconditionally
`setSelectedCountry(neName); setViewMode("country")`. -/
def onCountrySelect (neName : String) (s : SelectionState) : SelectionState :=
  { s with selectedCountry := some neName, viewMode := .country }

/-- The `resetToRegion` transition: the "Back to region" button
(`pages/index.tsx`, lines 94–97) runs
`setViewMode("region"); setSelectedCountry(null)`. -/
def resetToRegion (s : SelectionState) : SelectionState :=
  { s with viewMode := .region, selectedCountry := none }

/-- The `chooseRegion` transition: the dropdown's `onChange` runs
`setSelectedRegion(val)` (`pages/index.tsx`, line 86), and the effect
`useEffect(() => { setViewMode("region"); setSelectedCountry(null); },
[selectedRegion])` (lines 61–64) re-runs exactly when `selectedRegion`
changed between renders. When `r` equals the current region, React bails
out of the identical state update and the effect does not re-run, so the
state is left unchanged. -/
def chooseRegion (r : String) (s : SelectionState) : SelectionState :=
  if r = s.selectedRegion then s
  else { selectedRegion := r, viewMode := .region, selectedCountry := none }

/-- `regionCountries` (`components/RegionMap.tsx`, lines 243–248): the data
of the `countries` source, `countriesGeo.features.filter(f =>
f.properties.CONTINENT === selectedRegion)`. This is the `countriesOf`
query of the specification. -/
def regionCountries (countriesGeo : List CountryFeature) (selectedRegion : String) :
    List CountryFeature :=
  countriesGeo.filter (fun f => f.continent == selectedRegion)

/-- A pointer click attempting to select feature `f`
(`components/RegionMap.tsx`, lines 323–332). The `click` event on the
`countries-hit` layer delivers a feature only when it belongs to that
layer's source, which holds `regionCountries countriesGeo s.selectedRegion`;
clicking anywhere else resolves no feature and the handler returns without
doing anything. The handler then guards `if (!neName) return` and finally
calls the host's `onCountrySelect`. -/
def clickCountry (countriesGeo : List CountryFeature) (f : CountryFeature)
    (s : SelectionState) : SelectionState :=
  if f ∈ regionCountries countriesGeo s.selectedRegion then
    if f.name = "" then s else onCountrySelect f.name s
  else s

/-- A sequence of click attempts applied to a state. -/
def applyClicks (countriesGeo : List CountryFeature) (s : SelectionState)
    (clicks : List CountryFeature) : SelectionState :=
  clicks.foldl (fun st f => clickCountry countriesGeo f st) s

/-- The SVG revision's "Reset view" control (`src/unnamed/part_001`,
lines 218–223) runs `onCountrySelect("")`, routed into the host's handler
above. -/
def resetControl (s : SelectionState) : SelectionState :=
  onCountrySelect "" s

/-- The `SelectionState` invariant of the specification's data model:
(a) `selectedCountry` is non-null exactly when `viewMode = Country`;
(b) a set `selectedCountry` names a feature of the country collection whose
parent region equals `selectedRegion`. -/
def selectionInvariant (countriesGeo : List CountryFeature) (s : SelectionState) : Bool :=
  (s.selectedCountry.isSome == (s.viewMode == .country)) &&
  (match s.selectedCountry with
   | none => true
   | some n => (regionCountries countriesGeo s.selectedRegion).any (fun f => f.name == n))

/-- The two dynamic `NAME` filters of the `country-highlight` and
`country-outline` layers; `""` is the empty-match value both are
initialised with (`filter: ["==", ["get", "NAME"], ""]`). -/
structure HighlightFilters where
  highlight : String
  outline : String
  deriving DecidableEq, Repr

/-- `resetBtn.onclick` (`components/RegionMap.tsx`, lines 334–339): always
sets both layer filters back to the empty-match value, whatever they were. -/
def resetBtnClick (_m : HighlightFilters) : HighlightFilters :=
  { highlight := "", outline := "" }

/-! ## Supporting facts about the state machine (not claim theorems) -/

theorem selectionInvariant_chooseRegion (countriesGeo : List CountryFeature)
    (r : String) (s : SelectionState)
    (h : selectionInvariant countriesGeo s = true) :
    selectionInvariant countriesGeo (chooseRegion r s) = true := by
  unfold chooseRegion
  split
  · exact h
  · simp [selectionInvariant]

theorem selectionInvariant_resetToRegion (countriesGeo : List CountryFeature)
    (s : SelectionState) :
    selectionInvariant countriesGeo (resetToRegion s) = true := by
  simp [selectionInvariant, resetToRegion]

theorem selectionInvariant_clickCountry (countriesGeo : List CountryFeature)
    (f : CountryFeature) (s : SelectionState)
    (h : selectionInvariant countriesGeo s = true) :
    selectionInvariant countriesGeo (clickCountry countriesGeo f s) = true := by
  unfold clickCountry
  split
  · split
    · exact h
    · rename_i hmem hname
      simp only [selectionInvariant, onCountrySelect, Option.isSome_some,
        Bool.and_eq_true, List.any_eq_true, beq_iff_eq]
      exact ⟨rfl, f, by simpa using hmem, by simp⟩
  · exact h

/-! ## Claim C1 -/

/-- C1. "Every operation of the core (initial load, chooseRegion,
selectCountry, resetToRegion, and the reset control) preserves the
SelectionState invariant." The first four operations do preserve it
(`selectionInvariant_chooseRegion`, `selectionInvariant_clickCountry`,
`selectionInvariant_resetToRegion` above), but the cited reset control of
the SVG revision does not: from the invariant-satisfying state
`(Africa, Country, Kenya)` over the collection `[Kenya ∈ Africa]`, clicking
"Reset view" runs `onCountrySelect("")`, and the host handler sets
`selectedCountry = ""` and `viewMode = "country"`; the resulting state
violates clause (b) of the invariant, since `""` names no feature of the
collection. The same happens from the region view
`(Africa, Region, null)`, which the reset control moves into an
invariant-violating country mode. -/
theorem resetControl_breaks_invariant :
    selectionInvariant [⟨"Kenya", "Africa"⟩]
      ⟨"Africa", .country, some "Kenya"⟩ = true ∧
    resetControl ⟨"Africa", .country, some "Kenya"⟩ =
      ⟨"Africa", .country, some ""⟩ ∧
    selectionInvariant [⟨"Kenya", "Africa"⟩]
      (resetControl ⟨"Africa", .country, some "Kenya"⟩) = false ∧
    selectionInvariant [⟨"Kenya", "Africa"⟩]
      ⟨"Africa", .region, none⟩ = true ∧
    selectionInvariant [⟨"Kenya", "Africa"⟩]
      (resetControl ⟨"Africa", .region, none⟩) = false := by
  decide

/-! ## Claim C2 -/

/-- C2. For every country `c` of the collection whose parent region equals
the current `selectedRegion` (and which carries a `NAME` property — the
handler's `if (!neName) return` guard discards nameless features, which are
not countries), clicking it yields `viewMode = Country` and
`selectedCountry = c`; a click aimed at any feature `c'` whose parent
region differs never reaches the handler, because the `countries-hit`
layer's source only holds the selected region's countries, so the entire
`SelectionState` is left unchanged. -/
theorem selectCountry_spec (countriesGeo : List CountryFeature)
    (c : CountryFeature) (s : SelectionState) :
    (c ∈ countriesGeo → c.continent = s.selectedRegion → c.name ≠ "" →
      clickCountry countriesGeo c s =
        { s with viewMode := .country, selectedCountry := some c.name }) ∧
    (c.continent ≠ s.selectedRegion → clickCountry countriesGeo c s = s) := by
  constructor
  · intro hmem hreg hname
    unfold clickCountry
    rw [if_pos, if_neg hname]
    · rfl
    · simp [regionCountries, List.mem_filter, hmem, hreg]
  · intro hne
    unfold clickCountry
    rw [if_neg]
    intro hmem
    simp only [regionCountries, List.mem_filter, beq_iff_eq] at hmem
    exact hne hmem.2

/-- Witness for C2: over the specification's own scenario
(`Kenya ∈ Africa`, `Peru ∈ Americas`, selected region `Africa`), clicking
Kenya drills down to it and clicking Peru leaves the state unchanged. -/
theorem selectCountry_spec_witness :
    clickCountry [⟨"Kenya", "Africa"⟩, ⟨"Peru", "Americas"⟩]
        ⟨"Kenya", "Africa"⟩ ⟨"Africa", .region, none⟩ =
      ⟨"Africa", .country, some "Kenya"⟩ ∧
    clickCountry [⟨"Kenya", "Africa"⟩, ⟨"Peru", "Americas"⟩]
        ⟨"Peru", "Americas"⟩ ⟨"Africa", .region, none⟩ =
      ⟨"Africa", .region, none⟩ :=
  And.intro
    ((selectCountry_spec [⟨"Kenya", "Africa"⟩, ⟨"Peru", "Americas"⟩]
      ⟨"Kenya", "Africa"⟩ ⟨"Africa", .region, none⟩).1
        (by decide) (by decide) (by decide))
    ((selectCountry_spec [⟨"Kenya", "Africa"⟩, ⟨"Peru", "Americas"⟩]
      ⟨"Peru", "Americas"⟩ ⟨"Africa", .region, none⟩).2 (by decide))

/-! ## Claim C3 -/

/-- C3. `resetToRegion` composed with any sequence of click attempts always
returns to `viewMode = Region` with `selectedCountry = null`; applying it
from the `Region` state (where no country is selected) is a no-op, and so
it is idempotent; and the map's "Reset view" button handler sets both
country-selection filters back to the empty-match value regardless of their
current contents — it invokes the clear unconditionally. -/
theorem resetToRegion_spec (countriesGeo : List CountryFeature)
    (clicks : List CountryFeature) (s : SelectionState) (m : HighlightFilters) :
    ((resetToRegion (applyClicks countriesGeo s clicks)).viewMode = .region ∧
     (resetToRegion (applyClicks countriesGeo s clicks)).selectedCountry = none) ∧
    resetToRegion (resetToRegion s) = resetToRegion s ∧
    (s.viewMode = .region → s.selectedCountry = none → resetToRegion s = s) ∧
    resetBtnClick m = { highlight := "", outline := "" } := by
  refine ⟨⟨rfl, rfl⟩, rfl, ?_, rfl⟩
  intro hv hc
  cases s
  simp only at hv hc
  simp [resetToRegion, hv, hc]

/-- Witness for C3: drilling into Kenya and resetting lands back in the
region view, and resetting the region view itself changes nothing. -/
theorem resetToRegion_spec_witness :
    ((resetToRegion (applyClicks [⟨"Kenya", "Africa"⟩]
        ⟨"Africa", .region, none⟩ [⟨"Kenya", "Africa"⟩])).viewMode = .region ∧
     (resetToRegion (applyClicks [⟨"Kenya", "Africa"⟩]
        ⟨"Africa", .region, none⟩ [⟨"Kenya", "Africa"⟩])).selectedCountry = none) ∧
    resetToRegion ⟨"Africa", .region, none⟩ = ⟨"Africa", .region, none⟩ :=
  ⟨(resetToRegion_spec [⟨"Kenya", "Africa"⟩] [⟨"Kenya", "Africa"⟩]
      ⟨"Africa", .region, none⟩ ⟨"", ""⟩).1,
   (resetToRegion_spec [⟨"Kenya", "Africa"⟩] [] ⟨"Africa", .region, none⟩
      ⟨"", ""⟩).2.2.1 rfl rfl⟩

/-! ## Claim C6 -/

/-- C6 counterexample. The claim says `chooseRegion(r)` yields
`viewMode = Region ∧ selectedCountry = null ∧ selectedRegion = r` for
*every* prior state. When `r` equals the current `selectedRegion` while a
country is drilled into, the host's clearing effect
(`useEffect([selectedRegion])`) does not re-run — the dependency did not
change — so the state is left unchanged and the drilled-down country
survives, contradicting the claim. -/
theorem chooseRegion_same_region_cex :
    chooseRegion "Africa" ⟨"Africa", .country, some "Kenya"⟩ =
      ⟨"Africa", .country, some "Kenya"⟩ ∧
    (chooseRegion "Africa" ⟨"Africa", .country, some "Kenya"⟩).viewMode ≠
      .region := by
  decide

/-- C6 (amended). For every region name `r` *different from the current
`selectedRegion`* — the only case a region change through the dropdown
produces — `chooseRegion(r)` yields `viewMode = Region`,
`selectedCountry = null` and `selectedRegion = r`, regardless of prior
state: the drill-down clearing accompanies every actual region change. -/
theorem chooseRegion_spec (r : String) (s : SelectionState)
    (h : r ≠ s.selectedRegion) :
    chooseRegion r s = ⟨r, .region, none⟩ := by
  simp [chooseRegion, h]

/-- Witness for C6: changing region from Africa (with Kenya drilled in) to
Americas resets the drill-down. -/
theorem chooseRegion_spec_witness :
    chooseRegion "Americas" ⟨"Africa", .country, some "Kenya"⟩ =
      ⟨"Americas", .region, none⟩ :=
  chooseRegion_spec "Americas" ⟨"Africa", .country, some "Kenya"⟩ (by decide)

/-! ## Claim C7 -/

/-- The union of the per-region country queries over a list of region
names: `regionNames.map (countriesOf ·)` concatenated. -/
def unionOverRegions (regionNames : List String)
    (countriesGeo : List CountryFeature) : List CountryFeature :=
  (regionNames.map (fun r => regionCountries countriesGeo r)).flatten

theorem flatten_map_const_nil (names : List String) :
    (names.map (fun _ => ([] : List CountryFeature))).flatten = [] := by
  induction names with
  | nil => rfl
  | cons r rs ih =>
    simp only [List.map_cons, List.flatten_cons, List.nil_append]
    exact ih

/-- Inserting one feature into exactly the bucket of its own region name:
if `x` occurs exactly once in `names`, prepending `c` to bucket `x` adds
`c` exactly once to the concatenation. -/
theorem flatten_map_ite_cons (x : String) (c : CountryFeature)
    (g : String → List CountryFeature) (names : List String)
    (hx : x ∈ names) (hnd : names.Nodup) :
    ((names.map (fun r => if x = r then c :: g r else g r)).flatten).Perm
      (c :: (names.map g).flatten) := by
  induction names with
  | nil => cases hx
  | cons r rs ih =>
    rcases List.nodup_cons.mp hnd with ⟨hr, hrs⟩
    simp only [List.map_cons, List.flatten_cons]
    by_cases hxr : x = r
    · subst hxr
      have hmap : rs.map (fun r' => if x = r' then c :: g r' else g r') = rs.map g :=
        List.map_congr_left (fun a ha => by
          have hne : x ≠ a := fun h => hr (h ▸ ha)
          simp [hne])
      rw [if_pos rfl, hmap]
      exact List.Perm.refl _
    · have hx' : x ∈ rs := by
        cases hx with
        | head => exact absurd rfl hxr
        | tail _ h => exact h
      rw [if_neg hxr]
      exact (List.Perm.append_left (g r) (ih hx' hrs)).trans List.perm_middle

theorem unionOverRegions_perm (countriesGeo : List CountryFeature)
    (names : List String) (hnd : names.Nodup)
    (hcov : ∀ f ∈ countriesGeo, f.continent ∈ names) :
    (unionOverRegions names countriesGeo).Perm countriesGeo := by
  induction countriesGeo with
  | nil =>
    simp only [unionOverRegions, regionCountries, List.filter_nil]
    rw [flatten_map_const_nil]
  | cons c cs ih =>
    have hform : (fun r => regionCountries (c :: cs) r) =
        (fun r => if c.continent = r then c :: regionCountries cs r
                  else regionCountries cs r) := by
      funext r
      simp [regionCountries, List.filter_cons]
    have step := flatten_map_ite_cons c.continent c
      (fun r => regionCountries cs r) names
      (hcov c (List.mem_cons_self c cs)) hnd
    have ihcs := ih (fun f hf => hcov f (List.mem_cons_of_mem c hf))
    have h1 : unionOverRegions names (c :: cs) =
        ((names.map (fun r => if c.continent = r then c :: regionCountries cs r
          else regionCountries cs r)).flatten) := by
      rw [unionOverRegions, hform]
    rw [h1]
    exact step.trans (List.Perm.cons c ihcs)

/-- C7 counterexample. With the specification's own scenario — known
regions `["Africa"]`, countries `[Kenya ∈ Africa, Peru ∈ Americas]` — the
union of `countriesOf` over all known region names omits Peru, so it does
not equal the full country collection. -/
theorem unionOverRegions_cex :
    (⟨"Peru", "Americas"⟩ : CountryFeature) ∈
      ([⟨"Kenya", "Africa"⟩, ⟨"Peru", "Americas"⟩] : List CountryFeature) ∧
    (⟨"Peru", "Americas"⟩ : CountryFeature) ∉
      unionOverRegions ["Africa"] [⟨"Kenya", "Africa"⟩, ⟨"Peru", "Americas"⟩] := by
  decide

/-- C7 (amended). Every member of `countriesOf(r)` has parent region `r`,
and `countriesOf(r)` is the empty collection (not an error — the function
is total) when no country matches. The union of `countriesOf` over all
known region names contains each country once and omits none — i.e. it is
a permutation of the full country collection — provided the known region
names are pairwise distinct and every country's parent region is a known
region name; a country whose parent region is not a known region name is
omitted (see the counterexample). -/
theorem regionCountries_union_spec (countriesGeo : List CountryFeature)
    (names : List String) (r : String) :
    (∀ f ∈ regionCountries countriesGeo r, f.continent = r) ∧
    ((∀ f ∈ countriesGeo, f.continent ≠ r) → regionCountries countriesGeo r = []) ∧
    (names.Nodup → (∀ f ∈ countriesGeo, f.continent ∈ names) →
      (unionOverRegions names countriesGeo).Perm countriesGeo) := by
  refine ⟨?_, ?_, fun hnd hcov => unionOverRegions_perm countriesGeo names hnd hcov⟩
  · intro f hf
    simp only [regionCountries, List.mem_filter, beq_iff_eq] at hf
    exact hf.2
  · intro hnone
    refine List.filter_eq_nil_iff.mpr ?_
    intro f hf
    simp only [beq_iff_eq]
    exact hnone f hf

/-- Witness for C7: with both regions known, the union over
`["Africa", "Americas"]` is a permutation of the whole collection, and the
Americas bucket restricted to a continent with no match is empty. -/
theorem regionCountries_union_spec_witness :
    (unionOverRegions ["Africa", "Americas"]
      [⟨"Kenya", "Africa"⟩, ⟨"Peru", "Americas"⟩]).Perm
      [⟨"Kenya", "Africa"⟩, ⟨"Peru", "Americas"⟩] ∧
    regionCountries [⟨"Kenya", "Africa"⟩, ⟨"Peru", "Americas"⟩] "Oceania" = [] :=
  And.intro
    ((regionCountries_union_spec [⟨"Kenya", "Africa"⟩, ⟨"Peru", "Americas"⟩]
        ["Africa", "Americas"] "Africa").2.2 (by decide) (by decide))
    ((regionCountries_union_spec [⟨"Kenya", "Africa"⟩, ⟨"Peru", "Americas"⟩]
        ["Africa", "Americas"] "Oceania").2.1 (by decide))

/-! ## Claim C8 -/

/-- A `[longitude, latitude]` pair; JavaScript numbers are modelled as
rationals, which is exact for the min/max comparisons the code performs. -/
abbrev Coord := ℚ × ℚ

/-- A GeoJSON geometry as the bounds fitter's `push` helper inspects it:
polygons (a list of rings of coordinates), multi-polygons (a list of
polygons), and any other geometry type, which the helper ignores. -/
inductive Geometry
  | polygon (rings : List (List Coord))
  | multiPolygon (polys : List (List (List Coord)))
  | otherGeometry
  deriving DecidableEq, Repr

/-- The `push` helper of `fitToFeature` (`components/RegionMap.tsx`,
lines 142–145): `coordinates.flat(1)` for a polygon, `coordinates.flat(2)`
for a multi-polygon, nothing for any other geometry type. -/
def flattenGeometry : Geometry → List Coord
  | .polygon rings => rings.flatten
  | .multiPolygon polys => polys.flatten.flatten
  | .otherGeometry => []

/-- A feature as `fitToFeature` receives it; the guard `feature?.geometry`
allows the geometry to be absent. -/
structure MapFeature where
  geometry : Option Geometry
  deriving DecidableEq, Repr

/-- The flat `coords` list `fitToFeature` collects for a possibly-null
feature. -/
def coordsOf (feature : Option MapFeature) : List Coord :=
  match feature with
  | none => []
  | some f =>
    match f.geometry with
    | none => []
    | some g => flattenGeometry g

/-- The viewport transition requested of the rendering surface:
`map.fitBounds([sw, ne], {padding, duration, maxZoom})` or
`map.easeTo({center, zoom, duration})`. -/
inductive CameraRequest
  | fitBounds (sw ne : Coord) (padding : ℚ) (duration : ℚ) (maxZoom : ℚ)
  | easeTo (center : Coord) (zoom : ℚ) (duration : ℚ)
  deriving DecidableEq, Repr

/-- `fitToFeature` (`components/RegionMap.tsx`, lines 139–159). When the
flattened coordinate list is empty the default world-overview transition
`easeTo({center: [10, 20], zoom: 1.8, duration: 600})` is issued; otherwise
`fitBounds([[min lngs, min lats], [max lngs, max lats]], {padding: pad,
duration: 650, maxZoom: 5.5})`. `Math.min(...xs)`/`Math.max(...xs)` over
the non-empty spread are the folds seeded with the head. The function is
total — the source's surrounding try/catch (whose fallback is the same
default transition) never fires in this embedding, so fitting an empty
geometry cannot throw. -/
def fitToFeature (feature : Option MapFeature) (pad : ℚ) : CameraRequest :=
  match coordsOf feature with
  | [] => .easeTo (10, 20) (9/5) 600
  | c :: cs =>
    .fitBounds
      (((c :: cs).map Prod.fst).foldl min c.1,
       ((c :: cs).map Prod.snd).foldl min c.2)
      (((c :: cs).map Prod.fst).foldl max c.1,
       ((c :: cs).map Prod.snd).foldl max c.2)
      pad 650 (11 / 2)

theorem foldl_min_le_init (l : List ℚ) (a : ℚ) : l.foldl min a ≤ a := by
  induction l generalizing a with
  | nil => exact le_refl a
  | cons x xs ih =>
    simp only [List.foldl_cons]
    exact le_trans (ih (min a x)) (min_le_left a x)

theorem foldl_min_le_of_mem (l : List ℚ) (a x : ℚ) (hx : x ∈ l) :
    l.foldl min a ≤ x := by
  induction l generalizing a with
  | nil => cases hx
  | cons y ys ih =>
    simp only [List.foldl_cons]
    cases hx with
    | head =>
      exact le_trans (foldl_min_le_init ys (min a x)) (min_le_right a x)
    | tail _ h => exact ih (min a y) h

theorem foldl_min_mem (l : List ℚ) (a : ℚ) :
    l.foldl min a = a ∨ l.foldl min a ∈ l := by
  induction l generalizing a with
  | nil => exact Or.inl rfl
  | cons y ys ih =>
    simp only [List.foldl_cons]
    rcases ih (min a y) with h | h
    · rcases min_choice a y with hm | hm
      · exact Or.inl (h.trans hm)
      · exact Or.inr (by rw [h.trans hm]; exact List.mem_cons_self y ys)
    · exact Or.inr (List.mem_cons_of_mem y h)

theorem foldl_max_init_le (l : List ℚ) (a : ℚ) : a ≤ l.foldl max a := by
  induction l generalizing a with
  | nil => exact le_refl a
  | cons x xs ih =>
    simp only [List.foldl_cons]
    exact le_trans (le_max_left a x) (ih (max a x))

theorem foldl_max_le_of_mem (l : List ℚ) (a x : ℚ) (hx : x ∈ l) :
    x ≤ l.foldl max a := by
  induction l generalizing a with
  | nil => cases hx
  | cons y ys ih =>
    simp only [List.foldl_cons]
    cases hx with
    | head =>
      exact le_trans (le_max_right a x) (foldl_max_init_le ys (max a x))
    | tail _ h => exact ih (max a y) h

theorem foldl_max_mem (l : List ℚ) (a : ℚ) :
    l.foldl max a = a ∨ l.foldl max a ∈ l := by
  induction l generalizing a with
  | nil => exact Or.inl rfl
  | cons y ys ih =>
    simp only [List.foldl_cons]
    rcases ih (max a y) with h | h
    · rcases max_choice a y with hm | hm
      · exact Or.inl (h.trans hm)
      · exact Or.inr (by rw [h.trans hm]; exact List.mem_cons_self y ys)
    · exact Or.inr (List.mem_cons_of_mem y h)

/-- C8. For every feature the fitter flattens all rings of all polygons
(and all polygons of multi-polygons) into `coordsOf`. When that list is
empty it issues the fixed default world-overview transition — and, the
function being total, never throws. Otherwise it requests `fitBounds` of
the box `[minLng, minLat]–[maxLng, maxLat]` with the given pixel padding
and the fixed `maxZoom` cap: every flattened coordinate lies inside the
requested box, and each box edge is attained by some coordinate. -/
theorem fitToFeature_spec (feature : Option MapFeature) (pad : ℚ) :
    (coordsOf feature = [] →
      fitToFeature feature pad = .easeTo (10, 20) (9/5) 600) ∧
    (coordsOf feature ≠ [] →
      ∃ sw ne : Coord,
        fitToFeature feature pad = .fitBounds sw ne pad 650 (11 / 2) ∧
        (∀ p ∈ coordsOf feature,
          sw.1 ≤ p.1 ∧ p.1 ≤ ne.1 ∧ sw.2 ≤ p.2 ∧ p.2 ≤ ne.2) ∧
        sw.1 ∈ (coordsOf feature).map Prod.fst ∧
        ne.1 ∈ (coordsOf feature).map Prod.fst ∧
        sw.2 ∈ (coordsOf feature).map Prod.snd ∧
        ne.2 ∈ (coordsOf feature).map Prod.snd) := by
  constructor
  · intro h
    unfold fitToFeature
    rw [h]
  · intro h
    cases hc : coordsOf feature with
    | nil => exact absurd hc h
    | cons c cs =>
      unfold fitToFeature
      rw [hc]
      refine ⟨_, _, rfl, ?_, ?_, ?_, ?_, ?_⟩
      · intro p hp
        refine ⟨?_, ?_, ?_, ?_⟩
        · exact foldl_min_le_of_mem _ _ _ (List.mem_map_of_mem Prod.fst hp)
        · exact foldl_max_le_of_mem _ _ _ (List.mem_map_of_mem Prod.fst hp)
        · exact foldl_min_le_of_mem _ _ _ (List.mem_map_of_mem Prod.snd hp)
        · exact foldl_max_le_of_mem _ _ _ (List.mem_map_of_mem Prod.snd hp)
      · rcases foldl_min_mem ((c :: cs).map Prod.fst) c.1 with hm | hm
        · show List.foldl min c.1 ((c :: cs).map Prod.fst) ∈ (c :: cs).map Prod.fst
          rw [hm]
          exact List.mem_map_of_mem Prod.fst (List.mem_cons_self c cs)
        · exact hm
      · rcases foldl_max_mem ((c :: cs).map Prod.fst) c.1 with hm | hm
        · show List.foldl max c.1 ((c :: cs).map Prod.fst) ∈ (c :: cs).map Prod.fst
          rw [hm]
          exact List.mem_map_of_mem Prod.fst (List.mem_cons_self c cs)
        · exact hm
      · rcases foldl_min_mem ((c :: cs).map Prod.snd) c.2 with hm | hm
        · show List.foldl min c.2 ((c :: cs).map Prod.snd) ∈ (c :: cs).map Prod.snd
          rw [hm]
          exact List.mem_map_of_mem Prod.snd (List.mem_cons_self c cs)
        · exact hm
      · rcases foldl_max_mem ((c :: cs).map Prod.snd) c.2 with hm | hm
        · show List.foldl max c.2 ((c :: cs).map Prod.snd) ∈ (c :: cs).map Prod.snd
          rw [hm]
          exact List.mem_map_of_mem Prod.snd (List.mem_cons_self c cs)
        · exact hm

/-- Witness for C8: a null feature gets the default world-overview
transition, and a two-ring polygon (outer ring plus a hole) gets a
`fitBounds` request framing its tight bounding box. -/
theorem fitToFeature_spec_witness :
    fitToFeature none 60 = .easeTo (10, 20) (9/5) 600 ∧
    (∃ sw ne : Coord,
      fitToFeature (some ⟨some (.polygon [[(0, 0), (4, 2)], [(1, 1)]])⟩) 60 =
        .fitBounds sw ne 60 650 (11 / 2) ∧
      (∀ p ∈ coordsOf (some ⟨some (.polygon [[(0, 0), (4, 2)], [(1, 1)]])⟩),
        sw.1 ≤ p.1 ∧ p.1 ≤ ne.1 ∧ sw.2 ≤ p.2 ∧ p.2 ≤ ne.2) ∧
      sw.1 ∈ (coordsOf (some ⟨some (.polygon [[(0, 0), (4, 2)], [(1, 1)]])⟩)).map Prod.fst ∧
      ne.1 ∈ (coordsOf (some ⟨some (.polygon [[(0, 0), (4, 2)], [(1, 1)]])⟩)).map Prod.fst ∧
      sw.2 ∈ (coordsOf (some ⟨some (.polygon [[(0, 0), (4, 2)], [(1, 1)]])⟩)).map Prod.snd ∧
      ne.2 ∈ (coordsOf (some ⟨some (.polygon [[(0, 0), (4, 2)], [(1, 1)]])⟩)).map Prod.snd) :=
  And.intro ((fitToFeature_spec none 60).1 rfl)
    ((fitToFeature_spec (some ⟨some (.polygon [[(0, 0), (4, 2)], [(1, 1)]])⟩) 60).2
      (by decide))

/-! ## Claim C9 -/

/-- The failure taxonomy of `fetchJson` (`components/RegionMap.tsx`,
lines 128–137): a non-OK HTTP status, or a body that does not parse. Both
are the `LoadError` of the specification. -/
inductive LoadError
  | httpStatus
  | jsonParse
  deriving DecidableEq, Repr

/-- The observable outcome of one `fetch`: whether `res.ok` held and the
result of `JSON.parse` on the body text (`none` when parsing throws). -/
structure HttpResponse (α : Type) where
  ok : Bool
  parsed : Option α
  deriving DecidableEq, Repr

/-- `fetchJson` (`components/RegionMap.tsx`, lines 128–137): reads the body
text, throws on `!res.ok`, then parses, throwing on a parse failure. -/
def fetchJson {α : Type} (res : HttpResponse α) : Except LoadError α :=
  if res.ok = false then .error .httpStatus
  else
    match res.parsed with
    | some doc => .ok doc
    | none => .error .jsonParse

/-- `Promise.all([fetchJson(regions), fetchJson(countries)])`
(`components/RegionMap.tsx`, lines 163–166): resolves with both documents
when both fetches succeed, rejects with the first failure otherwise. -/
def loadGeometry {α β : Type} (regionsRes : HttpResponse α)
    (countriesRes : HttpResponse β) : Except LoadError (α × β) :=
  match fetchJson regionsRes, fetchJson countriesRes with
  | .ok rg, .ok cg => .ok (rg, cg)
  | .error e, _ => .error e
  | _, .error e => .error e

/-- The async IIFE around the load (`components/RegionMap.tsx`,
lines 161–368): on resolution it goes on to construct the map from both
collections; on rejection the `catch` only logs and no map is ever
constructed. -/
def renderedMap {α β : Type} (regionsRes : HttpResponse α)
    (countriesRes : HttpResponse β) : Option (α × β) :=
  match loadGeometry regionsRes countriesRes with
  | .ok pair => some pair
  | .error _ => none

/-- C9. The initial geometry load is a join of the two independent
fetches: a map is rendered exactly from a successful pair of documents
(never from a partial load), the load fails whenever either fetch fails,
and a fetch fails with a `LoadError` whenever its resource is unreachable
(`!res.ok`) or its body is unparsable. -/
theorem loadGeometry_spec {α β : Type} (regionsRes : HttpResponse α)
    (countriesRes : HttpResponse β) :
    (∀ pair, renderedMap regionsRes countriesRes = some pair →
      fetchJson regionsRes = .ok pair.1 ∧ fetchJson countriesRes = .ok pair.2) ∧
    ((∃ e, fetchJson regionsRes = .error e) ∨
     (∃ e, fetchJson countriesRes = .error e) →
      renderedMap regionsRes countriesRes = none) ∧
    (∀ (res : HttpResponse α), res.ok = false ∨ res.parsed = none →
      ∃ e, fetchJson res = .error e) := by
  refine ⟨?_, ?_, ?_⟩
  · intro pair hpair
    unfold renderedMap loadGeometry at hpair
    cases hr : fetchJson regionsRes with
    | error e => rw [hr] at hpair; simp at hpair
    | ok rg =>
      cases hc : fetchJson countriesRes with
      | error e => rw [hr, hc] at hpair; simp at hpair
      | ok cg =>
        rw [hr, hc] at hpair
        simp only [Option.some.injEq] at hpair
        rw [← hpair]
        exact ⟨rfl, rfl⟩
  · intro hfail
    unfold renderedMap loadGeometry
    rcases hfail with ⟨e, he⟩ | ⟨e, he⟩
    · rw [he]
      cases hc : fetchJson countriesRes <;> rfl
    · rw [he]
      cases hr : fetchJson regionsRes <;> rfl
  · intro res hres
    unfold fetchJson
    rcases hres with hok | hparse
    · rw [if_pos hok]
      exact ⟨.httpStatus, rfl⟩
    · rw [hparse]
      by_cases hok : res.ok = false
      · rw [if_pos hok]
        exact ⟨.httpStatus, rfl⟩
      · rw [if_neg hok]
        exact ⟨.jsonParse, rfl⟩

/-- Witness for C9: a 404 regions response (even with a parsable body)
yields no rendered map, and an unparsable countries body is a
`LoadError`. -/
theorem loadGeometry_spec_witness :
    renderedMap (⟨false, some 1⟩ : HttpResponse Nat)
      (⟨true, some 2⟩ : HttpResponse Nat) = none ∧
    (∃ e, fetchJson (⟨true, none⟩ : HttpResponse Nat) = .error e) :=
  And.intro
    ((loadGeometry_spec (⟨false, some 1⟩ : HttpResponse Nat)
        (⟨true, some 2⟩ : HttpResponse Nat)).2.1
      (Or.inl ⟨.httpStatus, rfl⟩))
    ((loadGeometry_spec (⟨true, none⟩ : HttpResponse Nat)
        (⟨true, some 2⟩ : HttpResponse Nat)).2.2
      ⟨true, none⟩ (Or.inr rfl))

/-! ## Claim C10 -/

/-- The risk classification enum of the summaries. -/
inductive RiskZone
  | Green
  | Warning
  | Red
  deriving DecidableEq, Repr

/-- The `Summary` record of `pages/index.tsx` (lines 8–18); `number | null`
fields are `Option ℚ`, optional fields are `Option`s. -/
structure Summary where
  region : Option String
  country : Option String
  risk_zone : RiskZone
  safe_build_height_m : Option ℚ
  safe_flight_floor_m : Option ℚ
  best_months : List Nat
  migration_density : ℚ
  monthly_density : List ℚ
  ne_country_name : Option String
  deriving DecidableEq, Repr

/-- Indexing a `Record<string, Summary>` built from an association list:
`data[k]`, `none` for a missing key (JavaScript `undefined`, falsy). -/
def lookupRec (data : List (String × Summary)) (k : String) : Option Summary :=
  (data.find? (fun p => p.1 == k)).map (fun p => p.2)

/-- `currentInfo` (`pages/index.tsx`, lines 66–71):
`viewMode === "country" && selectedCountry && countryData[selectedCountry]
? countryData[selectedCountry] : selectedRegion ?
regionData[selectedRegion] || null : null`. `selectedCountry` is truthy
when non-null and non-empty; a present record is always truthy. -/
def currentInfo (viewMode : ViewMode) (selectedCountry : Option String)
    (selectedRegion : String) (countryData regionData : List (String × Summary)) :
    Option Summary :=
  match viewMode, selectedCountry with
  | .country, some c =>
    if c ≠ "" ∧ (lookupRec countryData c).isSome then lookupRec countryData c
    else if selectedRegion ≠ "" then lookupRec regionData selectedRegion
    else none
  | _, _ =>
    if selectedRegion ≠ "" then lookupRec regionData selectedRegion
    else none

/-- C10. The info record equals the selected country's summary exactly when
`viewMode = Country`, `selectedCountry` is non-empty and a country summary
exists for it; in every other case it falls back to the selected region's
summary when the region is set and has one, and to `null` otherwise. -/
theorem currentInfo_spec (vm : ViewMode) (sc : Option String) (sr : String)
    (cd rd : List (String × Summary)) :
    (∀ c info, vm = .country → sc = some c → c ≠ "" →
      lookupRec cd c = some info →
      currentInfo vm sc sr cd rd = some info) ∧
    (¬ (vm = .country ∧ ∃ c, sc = some c ∧ c ≠ "" ∧
          (lookupRec cd c).isSome = true) →
      currentInfo vm sc sr cd rd =
        if sr ≠ "" then lookupRec rd sr else none) := by
  constructor
  · intro c info hvm hsc hc hlook
    subst hvm
    subst hsc
    show (if c ≠ "" ∧ (lookupRec cd c).isSome = true then lookupRec cd c
          else if sr ≠ "" then lookupRec rd sr else none) = some info
    rw [if_pos ⟨hc, by rw [hlook]; rfl⟩]
    exact hlook
  · intro hnot
    cases vm with
    | region =>
      cases sc <;> rfl
    | country =>
      cases sc with
      | none => rfl
      | some c =>
        show (if c ≠ "" ∧ (lookupRec cd c).isSome = true then lookupRec cd c
              else if sr ≠ "" then lookupRec rd sr else none) =
          (if sr ≠ "" then lookupRec rd sr else none)
        rw [if_neg (fun hcond => hnot ⟨rfl, c, rfl, hcond.1, hcond.2⟩)]

/-- Witness for C10: with a country summary present for Kenya, the drilled
state shows Kenya's record; a drilled country with no summary record falls
back to the region's record. -/
theorem currentInfo_spec_witness :
    currentInfo .country (some "Kenya") "Africa"
      [("Kenya", ⟨none, some "Kenya", .Red, none, none, [], 0, [], some "Kenya"⟩)]
      [("Africa", ⟨some "Africa", none, .Warning, none, none, [], 0, [], none⟩)] =
      some ⟨none, some "Kenya", .Red, none, none, [], 0, [], some "Kenya"⟩ ∧
    currentInfo .country (some "Chad") "Africa" []
      [("Africa", ⟨some "Africa", none, .Warning, none, none, [], 0, [], none⟩)] =
      some ⟨some "Africa", none, .Warning, none, none, [], 0, [], none⟩ :=
  And.intro
    ((currentInfo_spec .country (some "Kenya") "Africa"
        [("Kenya", ⟨none, some "Kenya", .Red, none, none, [], 0, [], some "Kenya"⟩)]
        [("Africa", ⟨some "Africa", none, .Warning, none, none, [], 0, [], none⟩)]).1
      "Kenya" _ rfl rfl (by decide) rfl)
    (((currentInfo_spec .country (some "Chad") "Africa" []
        [("Africa", ⟨some "Africa", none, .Warning, none, none, [], 0, [], none⟩)]).2
      (fun h => by
        obtain ⟨-, c, hc, -, hsome⟩ := h
        rw [← Option.some.inj hc] at hsome
        exact absurd hsome (by decide))).trans (by decide))

/-! ## Claim C4 -/

/-- An operation the mounted component performs against the rendering
surface or the host. -/
inductive SurfaceOp
  | preventDefaultLost
  | warn (msg : String)
  | resize
  | notifyCountrySelect (name : String)
  | addSource (id : String)
  | addLayer (id : String)
  | setFilter (layerId : String) (name : String)
  | fitTo (name : String)
  deriving DecidableEq, Repr

/-- An event delivered to the mounted map: WebGL context loss, WebGL
context restoration, or a click on the `countries-hit` layer resolving the
feature under the pointer (if any). -/
inductive MapEvent
  | contextLost
  | contextRestored
  | click (f : Option CountryFeature)
  deriving DecidableEq, Repr

/-- The operations of the `map.on("load")` handler
(`components/RegionMap.tsx`, lines 200–359): the background layer, the
`region` source with its fill and outline layers, and the `countries`
source with the hit-test, highlight and outline layers. Run once, when the
style loads. -/
def mapLoadOps : List SurfaceOp :=
  [.addLayer "bg",
   .addSource "region", .addLayer "region-fill", .addLayer "region-outline",
   .addSource "countries", .addLayer "countries-hit",
   .addLayer "country-highlight", .addLayer "country-outline"]

/-- The event handlers of the mounted map, embedded from
`components/RegionMap.tsx`: the `webglcontextlost` handler (lines 189–193)
calls `e.preventDefault()` and logs; the `webglcontextrestored` handler
(lines 194–198) logs and calls `map.resize()`; the click handler
(lines 323–332) notifies the host and writes the two selection filters and
a fit request. None of the three consults any context-lost flag — no such
flag exists in the component. -/
def handleMapEvent : MapEvent → List SurfaceOp
  | .contextLost => [.preventDefaultLost, .warn "WebGL context lost"]
  | .contextRestored => [.warn "WebGL context restored", .resize]
  | .click none => []
  | .click (some f) =>
    if f.name = "" then []
    else [.notifyCountrySelect f.name,
          .setFilter "country-highlight" f.name,
          .setFilter "country-outline" f.name,
          .fitTo f.name]

/-- Process a list of events, tagging every emitted operation with whether
the WebGL context was lost at the moment it was issued. -/
def runMapEvents : Bool → List MapEvent → List (Bool × SurfaceOp)
  | _, [] => []
  | lost, e :: es =>
    let lostNow := match e with
      | .contextLost => true
      | .contextRestored => false
      | .click _ => lost
    ((handleMapEvent e).map (fun op => (lostNow, op))) ++ runMapEvents lostNow es

/-- Whether an operation is a styling write (a paint-property or filter
update). -/
def isStyleWrite : SurfaceOp → Bool
  | .setFilter _ _ => true
  | _ => false

/-- Whether an operation creates a source or a layer. -/
def isLayerCreation : SurfaceOp → Bool
  | .addSource _ => true
  | .addLayer _ => true
  | _ => false

/-- C4 evaluated on the code. In the trace "context lost, click on Kenya,
context restored": (i) a selection-filter write is issued while the context
is lost — the component has no suppression flag, so the claim's "no
paint-property writes are issued while lost" fails; (ii) the restoration
handler performs exactly a console warning and `map.resize()` — it
re-creates none of the sources or layers (contrast `mapLoadOps`, which
creates all of them at load) and reapplies nothing of the current state,
so nothing establishes the claimed post-restoration layer presence. -/
theorem contextLoss_handlers_eval :
    (true, SurfaceOp.setFilter "country-highlight" "Kenya") ∈
      runMapEvents false
        [.contextLost, .click (some ⟨"Kenya", "Africa"⟩), .contextRestored] ∧
    handleMapEvent .contextRestored =
      [.warn "WebGL context restored", .resize] ∧
    (handleMapEvent .contextRestored).filter isLayerCreation = [] ∧
    (handleMapEvent .contextRestored).filter isStyleWrite = [] ∧
    mapLoadOps.filter isLayerCreation ≠ [] := by
  decide

/-! ## Claim C5 -/

/-- The dependency array of the map-creating `useEffect`
(`components/RegionMap.tsx`, line 379): `[selectedRegion, viewMode,
selectedCountry, regionData, onCountrySelect]`. The selection-state
entries are modelled; `regionData` and `onCountrySelect` only add further
re-run triggers. -/
structure EffectDeps where
  selectedRegion : String
  viewMode : ViewMode
  selectedCountry : Option String
  deriving DecidableEq, Repr

/-- A lifecycle operation of the component. `removeMap`/`createMap` carry
the identity of the surface object concerned. -/
inductive LifecycleOp
  | removeMap (id : Nat)
  | clearContainer
  | fetchGeojson
  | createMap (id : Nat)
  deriving DecidableEq, Repr

/-- One host re-render (`components/RegionMap.tsx`, lines 123–379): React
re-runs the effect exactly when some dependency changed; the cleanup
(lines 371–378) calls `map.remove()` and empties the container, and the
effect body refetches both geojson documents and constructs a new
`maplibregl.Map`. Returns the surviving surface identity and the emitted
operations. -/
def rerender (mapId : Nat) (prev next : EffectDeps) : Nat × List LifecycleOp :=
  if next = prev then (mapId, [])
  else (mapId + 1,
    [.removeMap mapId, .clearContainer, .fetchGeojson, .createMap (mapId + 1)])

/-- C5 evaluated on the code. A plain country selection — no geometry
reload, no surface loss — destroys the mounted surface (identity 0) and
constructs a brand-new one (identity 1), refetching the geometry on the
way: the rendering surface object is *not* left unchanged across
selection-state updates, contradicting the claim. (The file's first,
superseded revision of the component did update sources and paint
properties in place over a map created once; the active revision lists the
whole selection state in the effect's dependency array instead.) -/
theorem rerender_recreates_surface :
    rerender 0 ⟨"Africa", .region, none⟩ ⟨"Africa", .country, some "Kenya"⟩ =
      (1, [.removeMap 0, .clearContainer, .fetchGeojson, .createMap 1]) ∧
    (rerender 0 ⟨"Africa", .region, none⟩
      ⟨"Africa", .country, some "Kenya"⟩).1 ≠ 0 ∧
    rerender 5 ⟨"Africa", .country, some "Kenya"⟩
      ⟨"Africa", .country, some "Kenya"⟩ = (5, []) := by
  decide

end BirdMigration
